import Mathlib

/-!
Verification of the fuel-log derivation and CSV interchange engine of the
GasTracker application (src/utils.ts and src/components/FuelStats.tsx).

JavaScript numbers are modelled as rationals (ℚ); every IEEE double is a
finite decimal, so decimal literals of the source are exact here.  A JS
number that may be NaN is modelled as Option ℚ with `none` for NaN.
Strings are Lean strings; dates are kept abstract: the environment
dependent `new Date(s).toISOString()` is a parameter
`parseDate : String → Option String` (`none` when the date is invalid, in
which case toISOString throws a RangeError), and the locale dependent
`new Date(iso).toLocaleString()` is a parameter `fmtDate : String → String`.
-/

namespace GasTracker

/- Batteries marks the rational primitives irreducible to steer proofs
toward norm_num; restore the default so that concrete runs of the
embedded functions can be settled by kernel reduction. -/
attribute [local semireducible] Rat.add Rat.sub Rat.mul Rat.inv Rat.ofScientific Nat.gcd

/-- The whitespace class of JS: the characters of `\s` relevant to the
`trim`, regex lookahead and `parseFloat` uses in utils.ts (lines are
already split on newlines before any of these run). -/
def isSpaceJS (c : Char) : Bool :=
  c == ' ' || c == '\t' || c == '\n' || c == '\r' || c == '\x0b' || c == '\x0c'

/-- JS `String.prototype.trim` on a char list. -/
def trimJS (cs : List Char) : List Char :=
  ((cs.dropWhile isSpaceJS).reverse.dropWhile isSpaceJS).reverse

/-- Value of a list of decimal digit characters. -/
def digitsVal (ds : List Char) : ℕ :=
  ds.foldl (fun a c => 10 * a + (c.toNat - '0'.toNat)) 0

/-- Exponent digits of `parseFloat`, after the `e`/`E`: an optional sign
followed by digits; an exponent with no digits contributes nothing
(parseFloat stops before the `e`). -/
def expTail (t : List Char) : ℤ :=
  match t with
  | '-' :: d => if (d.takeWhile Char.isDigit).isEmpty then 0
                else -(digitsVal (d.takeWhile Char.isDigit) : ℤ)
  | '+' :: d => if (d.takeWhile Char.isDigit).isEmpty then 0
                else (digitsVal (d.takeWhile Char.isDigit) : ℤ)
  | d => if (d.takeWhile Char.isDigit).isEmpty then 0
         else (digitsVal (d.takeWhile Char.isDigit) : ℤ)

/-- Exponent part of `parseFloat` (`e3`, `E-2`, ...), 0 when absent. -/
def expVal (cs : List Char) : ℤ :=
  match cs with
  | 'e' :: t => expTail t
  | 'E' :: t => expTail t
  | _ => 0

/-- JS `parseFloat`: skip leading whitespace, optional sign, longest
decimal-literal prefix (integer digits, optional fraction, optional
exponent); `none` models NaN (no digits at all).  The `Infinity` literal
is not modelled: no claim involves it. -/
def parseFloatQ (s : String) : Option ℚ :=
  let cs0 := s.data.dropWhile isSpaceJS
  let sgn : ℚ := match cs0 with | '-' :: _ => -1 | _ => 1
  let cs := match cs0 with
            | '-' :: t => t
            | '+' :: t => t
            | _ => cs0
  let ip := cs.takeWhile Char.isDigit
  let cs1 := cs.dropWhile Char.isDigit
  let fp := match cs1 with
            | '.' :: t => t.takeWhile Char.isDigit
            | _ => []
  let cs2 := match cs1 with
             | '.' :: t => t.dropWhile Char.isDigit
             | _ => cs1
  if ip.isEmpty && fp.isEmpty then none
  else
    some (sgn * ((digitsVal ip : ℚ) + (digitsVal fp : ℚ) / (10 : ℚ) ^ fp.length)
            * (10 : ℚ) ^ expVal cs2)

/-! ## The field splitter of parseCSV

utils.ts line 179–183: fields are the global matches of the regex
`(".*?"|[^",]+)(?=\s*,|\s*$)` over the line, each with surrounding quotes
stripped and then trimmed. -/

/-- The lookahead `(?=\s*,|\s*$)`. -/
def lookaheadOk (cs : List Char) : Bool :=
  match cs.dropWhile isSpaceJS with
  | [] => true
  | c :: _ => c == ','

/-- Lazy matching of `".*?"` after the opening quote: scan for the first
closing quote at which the lookahead succeeds (on failure the lazy `.*?`
swallows that quote and continues).  Returns the content between the
quotes and the remainder after the closing quote. -/
def findClose (acc : List Char) : List Char → Option (List Char × List Char)
  | [] => none
  | c :: rest =>
    if c == '"' then
      if lookaheadOk rest then some (acc.reverse, rest)
      else findClose (c :: acc) rest
    else findClose (c :: acc) rest

/-- A character an unquoted field can contain: `[^",]`. -/
def unquotedOk (c : Char) : Bool := !(c == '"') && !(c == ',')

/-- The alternative `[^",]+(?=\s*,|\s*$)`: the greedy run of `[^",]`
characters followed by the lookahead.  Backtracking cannot rescue a
failing lookahead here: a shorter cut leaves either a non-space
non-comma run character (the lookahead fails on it) or only space run
characters followed by the same run end, so the lookahead at any cut
succeeds exactly when it succeeds at the full run; matching the full run
or nothing is therefore extensionally the JS behaviour. -/
def unquotedMatch (cs : List Char) : Option (List Char × List Char) :=
  let run := cs.takeWhile unquotedOk
  let rest := cs.dropWhile unquotedOk
  if run.isEmpty then none
  else if lookaheadOk rest then some (run, rest) else none

/-- One attempt of the regex at the current position: the quoted
alternative applies exactly when the first character is a quote (the
unquoted alternative cannot start with `"`). Returns the full match
(quotes included) and the remainder. -/
def matchAt (cs : List Char) : Option (List Char × List Char) :=
  match cs with
  | [] => none
  | c :: rest =>
    if c == '"' then
      match findClose [] rest with
      | some (content, r) => some ('"' :: (content ++ ['"']), r)
      | none => none
    else unquotedMatch (c :: rest)

/-- All global matches: try to match at the current position, on failure
advance one character (fuel-based; each step consumes at least one
character, so fuel = length suffices). -/
def splitAllF : ℕ → List Char → List (List Char)
  | 0, _ => []
  | _ + 1, [] => []
  | n + 1, c :: rest =>
    match matchAt (c :: rest) with
    | some (m, r) => m :: splitAllF n r
    | none => splitAllF n rest

def splitAll (cs : List Char) : List (List Char) := splitAllF cs.length cs

/-- `v.replace(/^"|"$/g, '')`: strip one leading and one trailing quote. -/
def stripQuotes (cs : List Char) : List Char :=
  let s1 := if cs.head? == some '"' then cs.tail else cs
  if s1.getLast? == some '"' then s1.dropLast else s1

/-- utils.ts `splitCSVLine` (lines 179–183). -/
def splitCSVLine (line : String) : List String :=
  (splitAll line.data).map (fun m => String.mk (trimJS (stripQuotes m)))

/-! ## Data model -/

/-- `Omit<FuelLog, 'id'>` of types.ts: one fill-up record.  `date` is the
ISO string produced by `toISOString`.  `location` is `string | undefined`.
`latitude`/`longitude` are `number | undefined` where the number may be
NaN: `none` = undefined, `some none` = NaN, `some (some q)` = finite. -/
structure RawLog where
  date : String
  odometer : ℚ
  gallons : ℚ
  pricePerGallon : ℚ
  totalCost : ℚ
  location : Option String
  latitude : Option (Option ℚ)
  longitude : Option (Option ℚ)
deriving Repr, DecidableEq

/-! ## parseCSV (utils.ts lines 171–223) -/

/-- `cols[i]` with JS out-of-range giving `undefined`; every use in
parseCSV either has `i < 5 ≤ cols.length` or collapses `undefined` and
`''` ( `cols[5] || ''`, `cols[6] ? … : undefined`), so the empty string
stands for `undefined`. -/
def getCol (cols : List String) (i : ℕ) : String := cols.getD i ""

/-- `cols[i] ? parseFloat(cols[i]) : undefined` for the coordinates. -/
def coordVal (s : String) : Option (Option ℚ) :=
  if s == "" then none else some (parseFloatQ s)

/-- `isNaN(pricePerGallon) ? (totalCost/gallons) : pricePerGallon`. -/
def priceVal (p : Option ℚ) (totalCost gallons : ℚ) : ℚ :=
  match p with
  | none => totalCost / gallons
  | some v => v

/-- The body of the parseCSV loop after the fields of a (nonempty,
already trimmed) line have been split: drop the row when fewer than 5
fields or when odometer, gallons or totalCost is NaN; otherwise parse the
date — `new Date(dateStr).toISOString()` throws a RangeError when the
date is invalid (`Except.error ()`); the line-209 comparison of the ISO
string against `'Invalid Date'` can never be true, so the documented
fallback to the current time is unreachable. -/
def rowOfCols (parseDate : String → Option String) (cols : List String) :
    Except Unit (Option RawLog) :=
  if cols.length < 5 then .ok none
  else
    match parseFloatQ (getCol cols 1), parseFloatQ (getCol cols 2),
          parseFloatQ (getCol cols 4) with
    | some odometer, some gallons, some totalCost =>
      match parseDate (getCol cols 0) with
      | none => .error ()
      | some d =>
        .ok (some
          { date := d
            odometer := odometer
            gallons := gallons
            pricePerGallon := priceVal (parseFloatQ (getCol cols 3)) totalCost gallons
            totalCost := totalCost
            location := some (getCol cols 5)
            latitude := coordVal (getCol cols 6)
            longitude := coordVal (getCol cols 7) })
    | _, _, _ => .ok none

/-- One iteration of the parseCSV loop on a raw line: trim, skip when
empty, otherwise split and process.  `ok none` = row skipped,
`ok (some r)` = row kept, `error` = exception escaping parseCSV. -/
def processLine (parseDate : String → Option String) (rawLine : String) :
    Except Unit (Option RawLog) :=
  let line := String.mk (trimJS rawLine.data)
  if line == "" then .ok none
  else rowOfCols parseDate (splitCSVLine line)

/-- `split(/\r?\n/)` on a character list: a separator is `\n` optionally
preceded by `\r`; always at least one piece. -/
def splitLines : List Char → List (List Char)
  | [] => [[]]
  | '\r' :: '\n' :: rest => [] :: splitLines rest
  | '\n' :: rest => [] :: splitLines rest
  | c :: rest =>
    match splitLines rest with
    | [] => [[c]]
    | h :: t => (c :: h) :: t

/-- `csvText.split(/\r?\n/)` (utils.ts line 172). -/
def splitLinesJS (s : String) : List String :=
  (splitLines s.data).map String.mk

/-- utils.ts `parseCSV` (lines 171–223): header-only or shorter input
gives no rows; otherwise every line after the first is processed in
order, skipped rows contributing nothing; an invalid date on a kept row
aborts the whole parse with the RangeError. -/
def parseCSV (parseDate : String → Option String) (csvText : String) :
    Except Unit (List RawLog) :=
  let lines := splitLinesJS csvText
  if lines.length < 2 then .ok []
  else
    (lines.drop 1).foldlM
      (fun acc line => (processLine parseDate line).map (fun r => acc ++ r.toList)) []

/-! ## exportToCSV (utils.ts lines 140–169)

Only the construction of `csvContent` is modelled; the Blob/anchor
download mechanics and the early return on an empty collection are UI
plumbing outside the claims. -/

/-- JS number-to-string for the finite-decimal rationals that model
doubles: the shortest decimal expansion (every IEEE double is a finite
decimal; the fallback branch is unreachable for double-valued inputs and
exists only to keep the function total). -/
def showQ (q : ℚ) : String :=
  match (List.range 31).find? (fun k => (q * (10 : ℚ) ^ k).den == 1) with
  | some k =>
    let n := (q * (10 : ℚ) ^ k).num
    let a := n.natAbs
    (if n < 0 then "-" else "") ++ toString (a / 10 ^ k) ++
      (if k == 0 then ""
       else "." ++ String.mk (List.replicate (k - (toString (a % 10 ^ k)).length) '0')
            ++ toString (a % 10 ^ k))
  | none => toString q

/-- `log.latitude || ''` rendered into the row: undefined, NaN and 0 are
all falsy and give the empty string, any other number its decimal. -/
def csvCoordField (x : Option (Option ℚ)) : String :=
  match x with
  | some (some v) => if v == 0 then "" else showQ v
  | _ => ""

/-- `` `"${log.location || ''}"` ``: undefined and the empty string both
render as the quoted empty string. -/
def csvLocField (loc : Option String) : String :=
  "\"" ++ (match loc with | some s => s | none => "") ++ "\""

/-- The eight fields of one exported row, in the fixed column order. -/
def csvFields (fmtDate : String → String) (log : RawLog) : List String :=
  ["\"" ++ fmtDate log.date ++ "\"",
   showQ log.odometer, showQ log.gallons, showQ log.pricePerGallon,
   showQ log.totalCost, csvLocField log.location,
   csvCoordField log.latitude, csvCoordField log.longitude]

def csvRow (fmtDate : String → String) (log : RawLog) : String :=
  String.intercalate "," (csvFields fmtDate log)

def csvHeaders : String :=
  "Date,Odometer,Gallons,Price/Gal,Total Cost,Location,Latitude,Longitude"

/-- The `csvContent` string built by exportToCSV. -/
def toCSVContent (fmtDate : String → String) (logs : List RawLog) : String :=
  String.intercalate "\n" (csvHeaders :: logs.map (csvRow fmtDate))

/-! ## Derivation engine (utils.ts lines 225–229, FuelStats.tsx) -/

/-- utils.ts `calculateMPG`: null when the odometer did not advance,
otherwise the distance divided by the current record's gallons — with no
guard on the divisor. -/
def calculateMPG (current previous : RawLog) : Option ℚ :=
  if current.odometer ≤ previous.odometer then none
  else some ((current.odometer - previous.odometer) / current.gallons)

/-- `parseFloat(mpg.toFixed(1))`: round to one decimal, ties toward the
larger value (the ECMAScript toFixed rule picks the larger candidate). -/
def round1 (q : ℚ) : ℚ := (⌊q * 10 + 1 / 2⌋ : ℚ) / 10

/-- The `mpg` series of FuelStats `chartData` (lines 16–28), taking the
date-sorted list the component computes first: for each record after the
first, `calculateMPG` against its predecessor; a truthy value is rounded
to one decimal, null (and the unreachable 0) entries are filtered out. -/
def chartMpgs (sortedLogs : List RawLog) : List ℚ :=
  (sortedLogs.zip sortedLogs.tail).filterMap (fun pc =>
    match calculateMPG pc.2 pc.1 with
    | some m => if m == 0 then none else some (round1 m)
    | none => none)

/-- FuelStats `avgMpg` (line 38): sum of the rounded chart values divided
by their count. -/
def avgMpg (sortedLogs : List RawLog) : ℚ :=
  let ms := chartMpgs sortedLogs
  ms.foldl (· + ·) 0 / (ms.length : ℚ)

/-- FuelStats line 45: `sortedLogs.reduce((acc, curr) => acc + curr.totalCost, 0)`. -/
def totalSpend (sortedLogs : List RawLog) : ℚ :=
  sortedLogs.foldl (fun acc curr => acc + curr.totalCost) 0

/-- FuelStats `costPerMile` (lines 42–47), on the date-sorted list: the
span is last minus first odometer of that order (`sortedLogs[0]`,
`sortedLogs[length-1]`), and a non-positive span yields the number 0. -/
def costPerMile (sortedLogs : List RawLog) : ℚ :=
  match sortedLogs with
  | [] => 0
  | l :: rest =>
    let totalMiles := (rest.getLastD l).odometer - l.odometer
    if 0 < totalMiles then totalSpend (l :: rest) / totalMiles else 0


/-! ## Simple-token rows, for the splitter theorems -/

/-- A character of a plain unquoted token: not a quote, comma or
whitespace. -/
def tokChar (c : Char) : Bool := unquotedOk c && !(isSpaceJS c)

/-- A field made only of plain token characters (possibly empty). -/
def simpleTok (f : String) : Bool := f.data.all tokChar

/-- Comma-join of raw fields at the character level. -/
def joinComma : List (List Char) → List Char
  | [] => []
  | [f] => f
  | f :: g :: rest => f ++ ',' :: joinComma (g :: rest)

/-! ## Derivation-engine theorems -/

/-- C6: for all records A (current) and B (previous) with
A.odometer > B.odometer and A.gallons > 0, fuelEconomy (calculateMPG)
returns exactly (A.odometer - B.odometer) / A.gallons — the division uses
the current record's volume, with no rounding. -/
theorem calculateMPG_formula (A B : RawLog)
    (h : B.odometer < A.odometer) (_hg : 0 < A.gallons) :
    calculateMPG A B = some ((A.odometer - B.odometer) / A.gallons) := by
  unfold calculateMPG
  rw [if_neg (not_le.mpr h)]

theorem calculateMPG_formula_witness :
    calculateMPG ⟨"b", 10300, 10, 3, 30, none, none, none⟩
        ⟨"a", 10000, 12, 3, 36, none, none, none⟩
      = some (((10300 : ℚ) - 10000) / 10) :=
  calculateMPG_formula _ _ (by norm_num) (by norm_num)

/-- C7: for all records A (current) and B (previous) with
A.odometer ≤ B.odometer, fuelEconomy (calculateMPG) returns the null
sentinel; no error is raised (the function is total). -/
theorem calculateMPG_nonincreasing_null (A B : RawLog)
    (h : A.odometer ≤ B.odometer) :
    calculateMPG A B = none := by
  unfold calculateMPG
  rw [if_pos h]

theorem calculateMPG_nonincreasing_null_witness :
    calculateMPG ⟨"b", 10000, 10, 3, 30, none, none, none⟩
        ⟨"a", 10000, 12, 3, 36, none, none, none⟩ = none :=
  calculateMPG_nonincreasing_null _ _ (by norm_num)

/-- C10: calculateMPG has no guard on the divisor: with
A.odometer > B.odometer and A.gallons = 0 it still returns the division
(A.odometer - B.odometer) / A.gallons rather than the null sentinel, so a
non-null result is produced exactly when A.odometer > B.odometer,
regardless of the volume.  (In JS the division by zero yields Infinity;
in the rational model the total division is returned unchanged.) -/
theorem calculateMPG_no_divisor_guard :
    (∀ A B : RawLog, B.odometer < A.odometer → A.gallons = 0 →
      calculateMPG A B = some ((A.odometer - B.odometer) / A.gallons)) ∧
    (∀ A B : RawLog, (calculateMPG A B).isSome ↔ B.odometer < A.odometer) := by
  constructor
  · intro A B h _
    unfold calculateMPG
    rw [if_neg (not_le.mpr h)]
  · intro A B
    unfold calculateMPG
    by_cases h : A.odometer ≤ B.odometer
    · simp [if_pos h, not_lt.mpr h]
    · simp [if_neg h, not_le.mp h]

theorem calculateMPG_no_divisor_guard_witness :
    calculateMPG ⟨"b", 10300, 0, 3, 30, none, none, none⟩
        ⟨"a", 10000, 12, 3, 36, none, none, none⟩
      = some (((10300 : ℚ) - 10000) / 0) :=
  calculateMPG_no_divisor_guard.1 _ _ (by norm_num) rfl

/-- Left fold of addition from an initial value. -/
theorem foldl_add_eq (l : List ℚ) : ∀ a, l.foldl (· + ·) a = a + l.sum := by
  induction l with
  | nil => simp
  | cons x xs ih =>
    intro a
    rw [List.foldl_cons, ih, List.sum_cons]
    ring

/-- The reduce of FuelStats line 45 is the plain sum of totalCost. -/
theorem totalSpend_eq_sum (logs : List RawLog) :
    totalSpend logs = (logs.map RawLog.totalCost).sum := by
  unfold totalSpend
  rw [← List.foldl_map RawLog.totalCost (· + ·) logs 0, foldl_add_eq, zero_add]

/-- C2 counterexample.  The claim says cost-per-distance is
totalSpend / (max odometer - min odometer) over the full collection and
an undefined sentinel on a zero-or-negative span.  The code instead uses
the first and last records of the date-sorted order and returns the
number 0 on a non-positive span: for two identically-placed records
(span 0) the result is the number 0, not an undefined sentinel; and for
a date-sorted collection with odometers 100, 50, 80 the claimed value is
totalSpend/(100-50) = 3/5 while the code returns 0 (its span is
80 - 100 < 0). -/
theorem costPerMile_claim_counterexample :
    costPerMile [⟨"d1", 100, 10, 3, 30, none, none, none⟩,
                 ⟨"d2", 100, 10, 3, 30, none, none, none⟩] = 0 ∧
    costPerMile [⟨"d1", 100, 10, 1, 10, none, none, none⟩,
                 ⟨"d2", 50, 10, 1, 10, none, none, none⟩,
                 ⟨"d3", 80, 10, 1, 10, none, none, none⟩] = 0 ∧
    totalSpend [⟨"d1", 100, 10, 1, 10, none, none, none⟩,
                ⟨"d2", 50, 10, 1, 10, none, none, none⟩,
                ⟨"d3", 80, 10, 1, 10, none, none, none⟩] / ((100 : ℚ) - 50) = 3 / 5 ∧
    (0 : ℚ) ≠ 3 / 5 := by
  refine ⟨?_, ?_, ?_, by norm_num⟩ <;> decide

/-- C2 amended: on the date-sorted collection, cost-per-distance is the
sum of totalCost divided by (last odometer - first odometer) — first and
last in date order, not min and max — when that span is positive, and the
number 0 (not an undefined sentinel) otherwise. -/
theorem costPerMile_amended (l : RawLog) (rest : List RawLog) :
    costPerMile (l :: rest) =
      if 0 < (rest.getLastD l).odometer - l.odometer
      then (((l :: rest).map RawLog.totalCost).sum)
            / ((rest.getLastD l).odometer - l.odometer)
      else 0 := by
  rw [show costPerMile (l :: rest) =
      (if 0 < (rest.getLastD l).odometer - l.odometer
       then totalSpend (l :: rest) / ((rest.getLastD l).odometer - l.odometer)
       else 0) from rfl]
  rw [totalSpend_eq_sum]

/-- C3 counterexample.  For the spec's own scenario — odometers
10000, 10300, 10620 and volumes 5, 10, 11 in ascending date order — the
code's average is (30 + 29.1)/2 = 29.55 (each pairwise value is first
rounded to one decimal by `toFixed(1)`), while the claimed exact mean of
30 and 320/11 is 325/11 ≈ 29.545; the two differ. -/
theorem avgMpg_claim_counterexample :
    avgMpg [⟨"d1", 10000, 5, 3, 30, none, none, none⟩,
            ⟨"d2", 10300, 10, 3, 30, none, none, none⟩,
            ⟨"d3", 10620, 11, 3, 30, none, none, none⟩] = 591 / 20 ∧
    ((300 : ℚ) / 10 + 320 / 11) / 2 = 325 / 11 ∧
    (591 : ℚ) / 20 ≠ 325 / 11 := by
  refine ⟨by decide, by norm_num, by norm_num⟩

/-- When consecutive odometers strictly increase and every volume is
positive, no chart entry is filtered out: the mpg series is exactly the
pairwise formula rounded to one decimal. -/
theorem chartMpgs_of_increasing (logs : List RawLog)
    (hinc : logs.Chain' (fun a b => a.odometer < b.odometer))
    (hg : ∀ x ∈ logs, 0 < x.gallons) :
    chartMpgs logs = (logs.zip logs.tail).map
      (fun pc => round1 ((pc.2.odometer - pc.1.odometer) / pc.2.gallons)) := by
  induction logs with
  | nil => rfl
  | cons a tail ih =>
    cases tail with
    | nil => rfl
    | cons b t =>
      have hab : a.odometer < b.odometer := (List.chain'_cons.mp hinc).1
      have hgb : 0 < b.gallons := hg b (List.mem_cons_of_mem a (List.mem_cons_self b t))
      have hv : 0 < (b.odometer - a.odometer) / b.gallons :=
        div_pos (by linarith) hgb
      have hmpg : calculateMPG b a = some ((b.odometer - a.odometer) / b.gallons) := by
        unfold calculateMPG
        rw [if_neg (not_le.mpr hab)]
      have htail := ih (List.chain'_cons.mp hinc).2
        (fun x hx => hg x (List.mem_cons_of_mem a hx))
      unfold chartMpgs at htail ⊢
      rw [show (a :: b :: t).zip (a :: b :: t).tail
            = (a, b) :: ((b :: t).zip (b :: t).tail) from rfl]
      rw [List.filterMap_cons, List.map_cons]
      simp only [hmpg]
      rw [if_neg (by simpa using hv.ne'), htail]

/-- C3 amended: for a chronologically ascending sequence with strictly
increasing odometers and positive volumes, the displayed average fuel
economy is the arithmetic mean of the pairwise values **after each has
been rounded to one decimal place** (the `toFixed(1)` in chartData), not
of the exact quotients. -/
theorem avgMpg_amended (logs : List RawLog)
    (hinc : logs.Chain' (fun a b => a.odometer < b.odometer))
    (hg : ∀ x ∈ logs, 0 < x.gallons) :
    avgMpg logs =
      (((logs.zip logs.tail).map
          (fun pc => round1 ((pc.2.odometer - pc.1.odometer) / pc.2.gallons))).sum)
        / ((logs.length - 1 : ℕ) : ℚ) := by
  unfold avgMpg
  rw [chartMpgs_of_increasing logs hinc hg]
  dsimp only
  rw [foldl_add_eq, zero_add, List.length_map, List.length_zip, List.length_tail,
      Nat.min_eq_right (Nat.sub_le _ _)]

theorem avgMpg_amended_witness :
    avgMpg [⟨"d1", 10000, 5, 3, 30, none, none, none⟩,
            ⟨"d2", 10300, 10, 3, 30, none, none, none⟩,
            ⟨"d3", 10620, 11, 3, 30, none, none, none⟩] =
      ((([⟨"d1", 10000, 5, 3, 30, none, none, none⟩,
          ⟨"d2", 10300, 10, 3, 30, none, none, none⟩,
          ⟨"d3", 10620, 11, 3, 30, none, none, none⟩] : List RawLog).zip
            ([⟨"d1", 10000, 5, 3, 30, none, none, none⟩,
              ⟨"d2", 10300, 10, 3, 30, none, none, none⟩,
              ⟨"d3", 10620, 11, 3, 30, none, none, none⟩] : List RawLog).tail).map
          (fun pc => round1 ((pc.2.odometer - pc.1.odometer) / pc.2.gallons))).sum
        / ((3 - 1 : ℕ) : ℚ) :=
  avgMpg_amended _ (by norm_num [List.chain'_cons]) (by
    intro x hx
    simp only [List.mem_cons, List.not_mem_nil, or_false] at hx
    rcases hx with h | h | h <;> subst h <;> norm_num)

/-! ## Encoder theorems -/

/-- C9: the falsy test `log.latitude || ''` renders a 0 coordinate as the
empty string, exactly as an absent coordinate — the whole encoded row is
identical to that of the record with the coordinate removed — and the
falsy `log.location || ''` maps an empty-string location to the quoted
empty string, as it does an absent one. -/
theorem encoder_zero_coordinate (fmt : String → String) (log : RawLog) :
    (log.latitude = some (some 0) →
      csvRow fmt log = csvRow fmt { log with latitude := none } ∧
      csvCoordField log.latitude = "") ∧
    (log.longitude = some (some 0) →
      csvRow fmt log = csvRow fmt { log with longitude := none } ∧
      csvCoordField log.longitude = "") ∧
    (log.location = some "" →
      csvRow fmt log = csvRow fmt { log with location := none } ∧
      csvLocField log.location = "\"\"") := by
  refine ⟨fun h => ?_, fun h => ?_, fun h => ?_⟩ <;>
    constructor <;>
    simp [csvRow, csvFields, csvCoordField, csvLocField, h]

theorem encoder_zero_coordinate_witness :
    csvRow (fun _ => "d") ⟨"D", 45000, 10, 3, 30, some "", some (some 0), some (some 5)⟩
        = csvRow (fun _ => "d")
            ⟨"D", 45000, 10, 3, 30, some "", none, some (some 5)⟩ ∧
    csvLocField (some "") = "\"\"" :=
  ⟨((encoder_zero_coordinate (fun _ => "d")
      ⟨"D", 45000, 10, 3, 30, some "", some (some 0), some (some 5)⟩).1 rfl).1,
   ((encoder_zero_coordinate (fun _ => "d")
      ⟨"D", 45000, 10, 3, 30, some "", some (some 0), some (some 5)⟩).2.2 rfl).2⟩

/-! ## parseCSV theorems -/

/-- processLine unfolded (definitional). -/
theorem processLine_eq (pd : String → Option String) (line : String) :
    processLine pd line =
      if String.mk (trimJS line.data) == "" then .ok none
      else rowOfCols pd (splitCSVLine (String.mk (trimJS line.data))) := rfl

/-- A trimmed-stable nonempty line goes straight to rowOfCols. -/
theorem processLine_of_trimmed (pd : String → Option String) (line : String)
    (htrim : String.mk (trimJS line.data) = line) (hne : line ≠ "") :
    processLine pd line = rowOfCols pd (splitCSVLine line) := by
  rw [processLine_eq, htrim, if_neg (by simpa using hne)]

/-- rowOfCols when the three mandatory numbers parse and the date parses. -/
theorem rowOfCols_ok (pd : String → Option String) (cols : List String)
    (o g t : ℚ) (d : String)
    (h5 : ¬ cols.length < 5)
    (ho : parseFloatQ (getCol cols 1) = some o)
    (hg : parseFloatQ (getCol cols 2) = some g)
    (ht : parseFloatQ (getCol cols 4) = some t)
    (hd : pd (getCol cols 0) = some d) :
    rowOfCols pd cols = .ok (some
      { date := d, odometer := o, gallons := g
        pricePerGallon := priceVal (parseFloatQ (getCol cols 3)) t g
        totalCost := t, location := some (getCol cols 5)
        latitude := coordVal (getCol cols 6)
        longitude := coordVal (getCol cols 7) }) := by
  unfold rowOfCols
  rw [if_neg h5, ho, hg, ht, hd]

/-- rowOfCols when the mandatory numbers parse but the date does not:
the RangeError of `toISOString` escapes. -/
theorem rowOfCols_invalid_date (pd : String → Option String) (cols : List String)
    (o g t : ℚ)
    (h5 : ¬ cols.length < 5)
    (ho : parseFloatQ (getCol cols 1) = some o)
    (hg : parseFloatQ (getCol cols 2) = some g)
    (ht : parseFloatQ (getCol cols 4) = some t)
    (hd : pd (getCol cols 0) = none) :
    rowOfCols pd cols = .error () := by
  unfold rowOfCols
  rw [if_neg h5, ho, hg, ht, hd]

/-- rowOfCols drops the row when a mandatory number is NaN. -/
theorem rowOfCols_dropped (pd : String → Option String) (cols : List String)
    (h : parseFloatQ (getCol cols 1) = none ∨ parseFloatQ (getCol cols 2) = none ∨
         parseFloatQ (getCol cols 4) = none) :
    rowOfCols pd cols = .ok none := by
  unfold rowOfCols
  by_cases h5 : cols.length < 5
  · rw [if_pos h5]
  · rw [if_neg h5]
    rcases h with h | h | h
    · rw [h]
    · cases h1 : parseFloatQ (getCol cols 1) <;> rw [h]
    · cases h1 : parseFloatQ (getCol cols 1) <;>
        cases h2 : parseFloatQ (getCol cols 2) <;> rw [h]

/-- parseCSV of a two-line text is processLine of the second line. -/
theorem parseCSV_two (pd : String → Option String) (s l0 l1 : String)
    (hs : splitLinesJS s = [l0, l1]) :
    parseCSV pd s = (processLine pd l1).map (fun r => r.toList) := by
  unfold parseCSV
  rw [hs]
  cases h : processLine pd l1 <;>
    simp [List.foldlM, h, Except.map, Except.bind, Except.pure, pure, bind]

/-- C1 (code bug): a row whose date field does not parse but whose
numeric fields do is neither kept with the current time substituted nor
skipped — `new Date(dateStr).toISOString()` (utils.ts line 208) throws a
RangeError on an invalid date, aborting the whole parse.  The line-209
check compares the result against the string the never-called `toString`
would give, so the documented fallback to the current time is dead code
(its caller confirms: the import handler catches and reports a failed
parse). -/
theorem parseCSV_invalid_date_raises (pd : String → Option String)
    (h : pd "notadate" = none) :
    parseCSV pd
      "Date,Odometer,Gallons,Price/Gal,Total Cost\nnotadate,100,10,3.5,35"
      = .error () := by
  rw [parseCSV_two pd _ "Date,Odometer,Gallons,Price/Gal,Total Cost"
        "notadate,100,10,3.5,35" (by decide)]
  rw [processLine_of_trimmed pd _ (by decide) (by decide)]
  rw [show splitCSVLine "notadate,100,10,3.5,35"
        = ["notadate", "100", "10", "3.5", "35"] by decide]
  rw [rowOfCols_invalid_date pd _ 100 10 35 (by norm_num)
        (by decide) (by decide)
        (by decide) (by exact h)]
  rfl

theorem parseCSV_invalid_date_raises_witness :
    parseCSV (fun _ => none)
      "Date,Odometer,Gallons,Price/Gal,Total Cost\nnotadate,100,10,3.5,35"
      = .error () :=
  parseCSV_invalid_date_raises (fun _ => none) rfl

/-- C5 counterexample.  The claim says a row with at least 5 fields whose
price field is missing gets pricePerGallon = totalCost / gallons and is
kept.  But an empty price field (`,,`) is dropped entirely by the
splitter, shifting the later columns left: in
`1/1/2024,100,10,,50,Shell` the total-cost slot then reads `Shell`,
which is NaN, so the row is silently dropped instead of kept (for any
date parser — the drop happens before the date is touched). -/
theorem parseCSV_missing_price_dropped :
    parseCSV (fun _ => none)
      "Date,Odometer,Gallons,Price/Gal,Total Cost,Location\n1/1/2024,100,10,,50,Shell"
      = .ok [] ∧
    splitCSVLine "1/1/2024,100,10,,50,Shell"
      = ["1/1/2024", "100", "10", "50", "Shell"] := by
  exact ⟨rfl, rfl⟩

/-- C5 amended: a line whose split yields fewer than 5 fields is silently
dropped; a line whose odometer, gallons or total-cost field is not a
number is silently dropped; and a split row of at least 5 fields whose
price field is **present but not numeric** is kept — provided its date
parses, see C1 — with pricePerGallon = totalCost / gallons.  (An *empty*
price field is instead deleted by the splitter and shifts the columns,
see the counterexample and C8.) -/
theorem parseCSV_row_validation (pd : String → Option String) :
    (∀ line : String,
      (splitCSVLine (String.mk (trimJS line.data))).length < 5 →
      processLine pd line = .ok none) ∧
    (∀ line : String,
      (parseFloatQ (getCol (splitCSVLine (String.mk (trimJS line.data))) 1) = none ∨
       parseFloatQ (getCol (splitCSVLine (String.mk (trimJS line.data))) 2) = none ∨
       parseFloatQ (getCol (splitCSVLine (String.mk (trimJS line.data))) 4) = none) →
      processLine pd line = .ok none) ∧
    (∀ (cols : List String) (o g t : ℚ) (d : String),
      ¬ cols.length < 5 →
      parseFloatQ (getCol cols 1) = some o →
      parseFloatQ (getCol cols 2) = some g →
      parseFloatQ (getCol cols 4) = some t →
      parseFloatQ (getCol cols 3) = none →
      pd (getCol cols 0) = some d →
      ∃ r, rowOfCols pd cols = .ok (some r) ∧ r.pricePerGallon = t / g) := by
  refine ⟨fun line h => ?_, fun line h => ?_, fun cols o g t d h5 ho hg ht hp hd => ?_⟩
  · rw [processLine_eq]
    by_cases he : String.mk (trimJS line.data) == ""
    · rw [if_pos he]
    · rw [if_neg he]
      unfold rowOfCols
      rw [if_pos h]
  · rw [processLine_eq]
    by_cases he : String.mk (trimJS line.data) == ""
    · rw [if_pos he]
    · rw [if_neg he]
      exact rowOfCols_dropped pd _ h
  · exact ⟨_, rowOfCols_ok pd cols o g t d h5 ho hg ht hd, by rw [hp]; rfl⟩

theorem parseCSV_row_validation_witness :
    processLine (fun _ => some "D") "a,b" = .ok none ∧
    processLine (fun _ => some "D") "x,100,oops,3.5,35" = .ok none ∧
    (∃ r, rowOfCols (fun _ => some "D") ["1/1/2024", "100", "10", "N/A", "50"]
        = .ok (some r) ∧ r.pricePerGallon = (50 : ℚ) / 10) :=
  ⟨(parseCSV_row_validation _).1 "a,b" (by decide),
   (parseCSV_row_validation _).2.1 "x,100,oops,3.5,35"
     (Or.inr (Or.inl (by decide))),
   (parseCSV_row_validation _).2.2 ["1/1/2024", "100", "10", "N/A", "50"]
     100 10 50 "D" (by norm_num) (by decide)
     (by decide) (by decide)
     (by decide) rfl⟩

/-- toCSVContent only consults the date formatter on the dates of the
records being encoded. -/
theorem toCSVContent_congr (f g : String → String) (logs : List RawLog)
    (h : ∀ l ∈ logs, f l.date = g l.date) :
    toCSVContent f logs = toCSVContent g logs := by
  unfold toCSVContent
  refine congrArg _ (congrArg _ (List.map_congr_left fun l hl => ?_))
  unfold csvRow csvFields
  rw [h l hl]

/-- C4: encoding the single specific record (odometer 45000, 12.5
gallons, total cost 42, price 3.36, location Sunoco, coordinates
42.1 and -71.0) and decoding the result yields exactly one record whose
odometer, gallons and totalCost are reproduced exactly and whose
pricePerGallon is within 1e-3 of the original (here: exactly).  The
locale-formatted date is pinned by hypothesis to a representative
`toLocaleString` output that the date parser accepts. -/
theorem csv_roundtrip_specific (fmtDate : String → String)
    (pd : String → Option String) (D2 : String)
    (hf : fmtDate "2026-10-11T21:00:00.000Z" = "10/11/2026, 5:00:00 PM")
    (hp : pd "10/11/2026, 5:00:00 PM" = some D2) :
    ∃ out,
      parseCSV pd (toCSVContent fmtDate
        [⟨"2026-10-11T21:00:00.000Z", 45000, 25/2, 84/25, 42, some "Sunoco",
          some (some (421/10)), some (some (-71))⟩]) = .ok [out] ∧
      out.odometer = 45000 ∧ out.gallons = 25/2 ∧ out.totalCost = 42 ∧
      |out.pricePerGallon - 84/25| ≤ 1/1000 := by
  rw [toCSVContent_congr fmtDate (fun _ => "10/11/2026, 5:00:00 PM") _
        (by intro l hl; simp only [List.mem_singleton] at hl; rw [hl]; exact hf)]
  rw [show toCSVContent (fun _ => "10/11/2026, 5:00:00 PM")
        [⟨"2026-10-11T21:00:00.000Z", 45000, 25/2, 84/25, 42, some "Sunoco",
          some (some (421/10)), some (some (-71))⟩]
      = "Date,Odometer,Gallons,Price/Gal,Total Cost,Location,Latitude,Longitude\n\"10/11/2026, 5:00:00 PM\",45000,12.5,3.36,42,\"Sunoco\",42.1,-71"
      from rfl]
  rw [parseCSV_two pd _
        "Date,Odometer,Gallons,Price/Gal,Total Cost,Location,Latitude,Longitude"
        "\"10/11/2026, 5:00:00 PM\",45000,12.5,3.36,42,\"Sunoco\",42.1,-71"
        (by decide)]
  rw [processLine_of_trimmed pd _ (by decide) (by decide)]
  rw [show splitCSVLine "\"10/11/2026, 5:00:00 PM\",45000,12.5,3.36,42,\"Sunoco\",42.1,-71"
        = ["10/11/2026, 5:00:00 PM", "45000", "12.5", "3.36", "42", "Sunoco",
           "42.1", "-71"] by decide]
  rw [rowOfCols_ok pd _ 45000 (25/2) 42 D2 (by norm_num)
        (by decide) (by decide) (by decide) (by exact hp)]
  refine ⟨_, rfl, rfl, rfl, rfl, ?_⟩
  rw [show priceVal (parseFloatQ (getCol ["10/11/2026, 5:00:00 PM", "45000",
        "12.5", "3.36", "42", "Sunoco", "42.1", "-71"] 3)) 42 (25/2) = 84/25
      from rfl]
  norm_num

theorem csv_roundtrip_specific_witness :
    ∃ out,
      parseCSV
        (fun s => if s == "10/11/2026, 5:00:00 PM"
                  then some "2026-10-11T21:00:00.000Z" else none)
        (toCSVContent (fun _ => "10/11/2026, 5:00:00 PM")
          [⟨"2026-10-11T21:00:00.000Z", 45000, 25/2, 84/25, 42, some "Sunoco",
            some (some (421/10)), some (some (-71))⟩]) = .ok [out] ∧
      out.odometer = 45000 ∧ out.gallons = 25/2 ∧ out.totalCost = 42 ∧
      |out.pricePerGallon - 84/25| ≤ 1/1000 :=
  csv_roundtrip_specific _ _ "2026-10-11T21:00:00.000Z" rfl rfl

/-! ## Splitter theorems (C8) -/

/-- String.intercalate at the character level. -/
theorem joinComma_glue (x y : List Char) (r : List (List Char)) :
    joinComma ((x ++ ',' :: y) :: r) = x ++ ',' :: joinComma (y :: r) := by
  cases r with
  | nil => rfl
  | cons g rs =>
    show (x ++ ',' :: y) ++ ',' :: joinComma (g :: rs)
        = x ++ ',' :: (y ++ ',' :: joinComma (g :: rs))
    simp [List.append_assoc]

theorem intercalate_go_data (as : List String) : ∀ acc : String,
    (String.intercalate.go acc "," as).data = joinComma (acc.data :: as.map String.data) := by
  induction as with
  | nil => intro acc; rfl
  | cons a as ih =>
    intro acc
    rw [show String.intercalate.go acc "," (a :: as)
          = String.intercalate.go (acc ++ "," ++ a) "," as from rfl]
    rw [ih]
    rw [show (acc ++ "," ++ a).data = acc.data ++ ',' :: a.data by
      rw [String.data_append, String.data_append, List.append_assoc,
          show ",".data = [','] by decide, List.singleton_append]]
    rw [List.map_cons, joinComma_glue]
    rfl

theorem intercalate_comma_data (fields : List String) :
    (String.intercalate "," fields).data = joinComma (fields.map String.data) := by
  cases fields with
  | nil => rfl
  | cons a as => exact intercalate_go_data as a

/-- matchAt on a nonempty list, unfolded. -/
theorem matchAt_cons (c : Char) (rest : List Char) :
    matchAt (c :: rest) =
      if c == '"' then
        match findClose [] rest with
        | some (content, r) => some ('"' :: (content ++ ['"']), r)
        | none => none
      else unquotedMatch (c :: rest) := rfl

/-- A comma never starts a match. -/
theorem matchAt_comma (cs : List Char) : matchAt (',' :: cs) = none := rfl

theorem splitAllF_nil (n : ℕ) : splitAllF n [] = [] := by cases n <;> rfl

theorem splitAllF_cons (n : ℕ) (c : Char) (rest : List Char) :
    splitAllF (n + 1) (c :: rest) =
      match matchAt (c :: rest) with
      | some (m, r) => m :: splitAllF n r
      | none => splitAllF n rest := rfl

theorem splitAllF_comma (n : ℕ) (cs : List Char) :
    splitAllF (n + 1) (',' :: cs) = splitAllF n cs := by
  rw [splitAllF_cons, matchAt_comma]

theorem span_exact (p : Char → Bool) (f : List Char) : ∀ cs : List Char,
    (∀ c ∈ f, p c = true) → (∀ d, cs.head? = some d → p d = false) →
    (f ++ cs).takeWhile p = f ∧ (f ++ cs).dropWhile p = cs := by
  induction f with
  | nil =>
    intro cs _ hcs
    cases cs with
    | nil => exact ⟨rfl, rfl⟩
    | cons d t =>
      have hd := hcs d rfl
      constructor
      · simp [List.takeWhile_cons, hd]
      · simp [List.dropWhile_cons, hd]
  | cons c f2 ih =>
    intro cs hf hcs
    have hc : p c = true := hf c (List.mem_cons_self c f2)
    obtain ⟨h1, h2⟩ := ih cs (fun x hx => hf x (List.mem_cons_of_mem c hx)) hcs
    constructor
    · simp [List.takeWhile_cons, hc, h1]
    · simp [List.dropWhile_cons, hc, h2]

/-- A nonempty token run directly followed by a comma or the line end is
matched whole. -/
theorem matchAt_token (f cs : List Char) (hne : f ≠ [])
    (hf : ∀ c ∈ f, unquotedOk c = true)
    (hcs : ∀ d, cs.head? = some d → unquotedOk d = false)
    (hla : lookaheadOk cs = true) :
    matchAt (f ++ cs) = some (f, cs) := by
  cases f with
  | nil => exact absurd rfl hne
  | cons c f2 =>
    have hc : unquotedOk c = true := hf c (List.mem_cons_self c f2)
    have hcq : ¬((c == '"') = true) := by
      intro hq
      rw [unquotedOk, hq] at hc
      exact Bool.false_ne_true hc
    obtain ⟨h1, h2⟩ := span_exact unquotedOk (c :: f2) cs hf hcs
    show matchAt (c :: (f2 ++ cs)) = some (c :: f2, cs)
    rw [matchAt_cons, if_neg hcq]
    unfold unquotedMatch
    rw [show c :: (f2 ++ cs) = (c :: f2) ++ cs from rfl, h1, h2]
    rw [if_neg (by simp), if_pos hla]

/-- Main splitter run over comma-joined token fields: exactly the
nonempty fields are matched, in order; empty fields vanish. -/
theorem splitAllF_joinComma (fs : List (List Char)) : ∀ n : ℕ,
    (joinComma fs).length ≤ n →
    (∀ f ∈ fs, ∀ c ∈ f, tokChar c = true) →
    splitAllF n (joinComma fs) = fs.filter (fun f => !f.isEmpty) := by
  induction fs with
  | nil => intro n _ _; exact splitAllF_nil n
  | cons f rest ih =>
    intro n hn hok
    have hfok : ∀ c ∈ f, unquotedOk c = true := by
      intro c hc
      have := hok f (List.mem_cons_self f rest) c hc
      rw [tokChar, Bool.and_eq_true] at this
      exact this.1
    cases rest with
    | nil =>
      cases f with
      | nil => exact splitAllF_nil n
      | cons c f2 =>
        have hn1 : f2.length + 1 ≤ n := by
          simpa [joinComma] using hn
        obtain ⟨m, rfl⟩ := Nat.exists_eq_succ_of_ne_zero (show n ≠ 0 by omega)
        have hm := matchAt_token (c :: f2) [] (by simp) hfok
          (by intro d hd; exact absurd hd (by simp)) rfl
        rw [List.append_nil] at hm
        show splitAllF (m + 1) (c :: f2) = _
        rw [splitAllF_cons, hm]
        show (c :: f2) :: splitAllF m [] = _
        rw [splitAllF_nil]
        rfl
    | cons g rs =>
      have hjoin : joinComma (f :: g :: rs) = f ++ ',' :: joinComma (g :: rs) := rfl
      have hlen : f.length + ((joinComma (g :: rs)).length + 1) ≤ n := by
        rw [hjoin] at hn
        simpa [List.length_append] using hn
      cases f with
      | nil =>
        obtain ⟨m, rfl⟩ := Nat.exists_eq_succ_of_ne_zero (show n ≠ 0 by omega)
        rw [hjoin, List.nil_append, splitAllF_comma]
        rw [ih m (by omega) (fun x hx => hok x (List.mem_cons_of_mem _ hx))]
        rfl
      | cons c f2 =>
        obtain ⟨m, rfl⟩ := Nat.exists_eq_succ_of_ne_zero (show n ≠ 0 by omega)
        have hm := matchAt_token (c :: f2) (',' :: joinComma (g :: rs)) (by simp)
          hfok (by intro d hd; injection hd with h; rw [← h]; rfl) rfl
        rw [hjoin]
        rw [show (c :: f2) ++ ',' :: joinComma (g :: rs)
              = c :: (f2 ++ ',' :: joinComma (g :: rs)) from rfl]
        rw [splitAllF_cons]
        rw [show c :: (f2 ++ ',' :: joinComma (g :: rs))
              = (c :: f2) ++ ',' :: joinComma (g :: rs) from rfl]
        rw [hm]
        show (c :: f2) :: splitAllF m (',' :: joinComma (g :: rs)) = _
        obtain ⟨m2, rfl⟩ := Nat.exists_eq_succ_of_ne_zero
          (show m ≠ 0 by simp at hlen; omega)
        rw [splitAllF_comma]
        rw [ih m2 (by simp at hlen; omega)
            (fun x hx => hok x (List.mem_cons_of_mem _ hx))]
        rfl

/-- dropWhile is the identity when the first element fails the predicate. -/
theorem dropWhile_eq_self_of_head (p : Char → Bool) (l : List Char)
    (h : ∀ d, l.head? = some d → p d = false) : l.dropWhile p = l := by
  cases l with
  | nil => rfl
  | cons c t => simp [List.dropWhile_cons, h c rfl]

/-- Quote stripping and trimming do not touch a token field. -/
theorem tok_identity (cs : List Char) (h : ∀ c ∈ cs, tokChar c = true) :
    trimJS (stripQuotes cs) = cs := by
  have hsplit : ∀ c ∈ cs, ¬c = '"' ∧ ¬c = ',' ∧ isSpaceJS c = false := by
    intro c hc
    have := h c hc
    rw [tokChar, Bool.and_eq_true] at this
    obtain ⟨h1, h2⟩ := this
    rw [unquotedOk, Bool.and_eq_true] at h1
    refine ⟨by simpa using h1.1, by simpa using h1.2, by simpa using h2⟩
  have hq : stripQuotes cs = cs := by
    unfold stripQuotes
    have h1 : ¬((cs.head? == some '"') = true) := by
      cases cs with
      | nil => simp
      | cons c t =>
        have := (hsplit c (List.mem_cons_self c t)).1
        simp [this]
    rw [if_neg h1]
    have h2 : ¬((cs.getLast? == some '"') = true) := by
      cases hl : cs.getLast? with
      | none => simp
      | some d =>
        obtain ⟨ys, hys⟩ := List.getLast?_eq_some_iff.mp hl
        have hd : d ∈ cs := by rw [hys]; simp
        have := (hsplit d hd).1
        simp [this]
    rw [if_neg h2]
  rw [hq]
  unfold trimJS
  rw [dropWhile_eq_self_of_head isSpaceJS cs
        (by intro d hd; cases cs with
            | nil => exact absurd hd (by simp)
            | cons c t =>
              injection hd with hd
              rw [← hd]
              exact (hsplit c (List.mem_cons_self c t)).2.2)]
  rw [dropWhile_eq_self_of_head isSpaceJS cs.reverse
        (by intro d hd
            rw [List.head?_reverse] at hd
            obtain ⟨ys, hys⟩ := List.getLast?_eq_some_iff.mp hd
            exact (hsplit d (by rw [hys]; simp)).2.2)]
  exact List.reverse_reverse cs

/-- C8: the splitter deletes empty unquoted fields instead of producing
empty-string fields: on any comma-joined row of plain token fields,
splitCSVLine returns exactly the nonempty fields, in order — so every
column after an empty field (for instance an absent latitude written
`,,`) is shifted one position left relative to the fixed column
layout. -/
theorem splitCSVLine_drops_empty_fields (fields : List String)
    (h : ∀ f ∈ fields, simpleTok f = true) :
    splitCSVLine (String.intercalate "," fields)
      = fields.filter (fun f => !(f == "")) := by
  unfold splitCSVLine splitAll
  rw [intercalate_comma_data]
  rw [splitAllF_joinComma (fields.map String.data) _ le_rfl
        (by intro f hf c hc
            obtain ⟨s, hs, rfl⟩ := List.mem_map.mp hf
            exact List.all_eq_true.mp (h s hs) c hc)]
  rw [List.filter_map]
  rw [List.map_map]
  have hpred : ∀ f ∈ fields,
      ((fun f => !f.isEmpty) ∘ String.data) f = (fun f => !(f == "")) f := by
    intro f _
    show (!f.data.isEmpty) = !(f == "")
    cases hf : f.data with
    | nil =>
      have : f = "" := by
        cases f
        simp at hf
        rw [hf]
      rw [this]
      rfl
    | cons c t =>
      have : ¬(f = "") := by
        intro he
        rw [he] at hf
        exact absurd hf (by simp)
      simp [List.isEmpty, this]
  rw [List.filter_congr hpred]
  have hid : ∀ f ∈ fields.filter (fun f => !(f == "")),
      ((fun m => String.mk (trimJS (stripQuotes m))) ∘ String.data) f = id f := by
    intro f hf
    show String.mk (trimJS (stripQuotes f.data)) = f
    rw [tok_identity f.data
          (List.all_eq_true.mp (h f (List.mem_of_mem_filter hf)))]
  rw [List.map_congr_left hid, List.map_id]

theorem splitCSVLine_drops_empty_fields_witness :
    splitCSVLine (String.intercalate "," ["1/1/2024", "100", "10", "", "50", "Shell"])
      = (["1/1/2024", "100", "10", "", "50", "Shell"].filter (fun f => !(f == ""))) :=
  splitCSVLine_drops_empty_fields _ (by decide)

end GasTracker
